import Mathlib

/-
  Formal model of the golog logging library (github.com/corneldamian/golog).

  The definitions below are a shallow embedding of the Go sources:
  - src/manager.go: the log manager (formatHeader, write, shouldRotate,
    closeFile, newFile, rename, itoa) and its rotation/fallback state machine.
  - src/logger.go: the logger facade (levels, ToLogLevel, NewLogger registry
    check, the Debug/Info/Warning/Error methods and their *f variants, Write).
  - src/logger_test.go additionally carries a sibling copy of logger.go whose
    message struct holds the verbosity and tag fields used by manager.go's
    formatHeader, and whose Stop closes every manager channel; those parts are
    embedded from that copy where manager.go depends on them.

  Filesystem and clock effects are made explicit: newFile/rename take an
  environment describing the stat/rename/create outcomes and emit an event
  trace; times and call sites are passed in as values.  Go runtime aborts
  (index out of range, nil writer) are modelled as Option/None results.
-/

set_option maxHeartbeats 1000000

namespace Golog

/-- Severity values from src/logger.go lines 13-20: type LogLevel int with
ERROR=0, WARNING=1, INFO=2, DEBUG=3 (higher value = more verbose). -/
def ERROR : Int := 0

/-- WARNING severity (1). -/
def WARNING : Int := 1

/-- INFO severity (2). -/
def INFO : Int := 2

/-- DEBUG severity (3). -/
def DEBUG : Int := 3

/-- LogLevel.String from src/logger.go lines 31-44: the four named levels,
anything else renders as UNKNOWN. -/
def levelString (l : Int) : List Char :=
  if l = ERROR then "ERROR".toList
  else if l = WARNING then "WARNING".toList
  else if l = INFO then "INFO".toList
  else if l = DEBUG then "DEBUG".toList
  else "UNKNOWN".toList

/-- The verbosity bitmask (src/logger.go lines 64-76), modelled as one Boolean
per flag: LDate, LTime, LMicroseconds, LUTC, LFile, LFileLong, LLevel,
LHeaderFooter.  A Go test `v&LFlag != 0` corresponds to reading the field. -/
structure Verbosity where
  date : Bool
  time : Bool
  micro : Bool
  utc : Bool
  file : Bool
  fileLong : Bool
  level : Bool
  headerFooter : Bool
deriving DecidableEq

/-- LDefault = LDate | LTime | LLevel (src/logger.go line 75). -/
def LDefault : Verbosity :=
  { date := true, time := true, micro := false, utc := false,
    file := false, fileLong := false, level := true, headerFooter := false }

/-- A broken-down time value (the components golog reads off a time.Time:
Date(), Clock(), Nanosecond()). -/
structure DateRec where
  year : Nat
  month : Nat
  day : Nat
  hour : Nat
  minute : Nat
  sec : Nat
  nsec : Nat
deriving DecidableEq

/-- One element of the variadic interface{} payload: either a Go string (the
only case the formatter's type assertion message[0].(string) accepts) or some
other value, identified by a tag. -/
inductive GoVal where
  | str (s : List Char)
  | other (tag : Nat)
deriving DecidableEq

/-- The message struct from the logger copy in src/logger_test.go lines
272-279 (the one manager.go's formatHeader reads): tag pointer, date, level,
vebosity (sic), payload, call location.  The field pfx models the Go field
holding the logger tag; dateUTC is the UTC view date.UTC() would return. -/
structure Message where
  pfx : Option (List Char)
  date : DateRec
  dateUTC : DateRec
  level : Int
  vebosity : Verbosity
  message : List GoVal
  callLocation : List Char
deriving DecidableEq

/-- The digit loop of itoa (src/manager.go lines 205-219).  The fuel argument
mirrors the 20-byte scratch buffer; the loop runs while i >= 10 or wid > 1,
emitting i % 10 low digits right to left. -/
def itoaGo : Nat → Nat → Nat → List Char
  | 0, i, _ => [Nat.digitChar i]
  | fuel+1, i, wid =>
    if 10 ≤ i ∨ 1 < wid then itoaGo fuel (i / 10) (wid - 1) ++ [Nat.digitChar (i % 10)]
    else [Nat.digitChar i]

/-- itoa from src/manager.go: append the decimal form of i, zero padded to
width wid. -/
def itoa (i wid : Nat) : List Char := itoaGo 19 i wid

/-- The message tail of formatHeader (src/manager.go lines 105-109): with more
than one payload element, fmt.Sprintf(message[0].(string), message[1:]...);
otherwise fmt.Sprint(message[0]).  Reading message[0] of an empty payload is a
Go index-out-of-range abort, and a failed type assertion aborts too: both are
None.  sprintf and sprint stand for the Go fmt primitives. -/
def msgPart (sprintf : List Char → List GoVal → List Char) (sprint : GoVal → List Char)
    (vs : List GoVal) : Option (List Char) :=
  if vs.length > 1 then
    match vs with
    | GoVal.str f :: rest => some (sprintf f rest)
    | _ => none
  else
    match vs with
    | [] => none
    | v :: _ => some (sprint v)

/-- formatHeader from src/manager.go lines 57-114, mirroring the code shape:
UTC switch, combined date/time block, level, call site, tag, message,
trailing-newline fixup (append when the buffer is empty or does not end in a
newline). -/
def formatHeader (sprintf : List Char → List GoVal → List Char) (sprint : GoVal → List Char)
    (msg : Message) : Option (List Char) :=
  let d := if msg.vebosity.utc then msg.dateUTC else msg.date
  let b1 : List Char :=
    if msg.vebosity.date || msg.vebosity.time || msg.vebosity.micro then
      (if msg.vebosity.date then
        itoa d.year 4 ++ ['/'] ++ itoa d.month 2 ++ ['/'] ++ itoa d.day 2 ++ [' ']
      else []) ++
      (if msg.vebosity.time || msg.vebosity.micro then
        itoa d.hour 2 ++ [':'] ++ itoa d.minute 2 ++ [':'] ++ itoa d.sec 2 ++
          (if msg.vebosity.micro then ['.'] ++ itoa (d.nsec / 1000) 6 else []) ++ [' ']
      else [])
    else []
  let b2 := b1 ++ (if msg.vebosity.level then levelString msg.level ++ [' '] else [])
  let b3 := b2 ++ (if msg.vebosity.file then ['['] ++ msg.callLocation ++ [']', ' '] else [])
  let b4 := b3 ++ (match msg.pfx with
    | some p => if p = [] then [] else ['['] ++ p ++ [']', ' ']
    | none => [])
  match msgPart sprintf sprint msg.message with
  | none => none
  | some mp =>
    let b5 := b4 ++ mp
    some (if b5 = [] ∨ ¬ b5.getLast? = some '\n' then b5 ++ ['\n'] else b5)

/-- Modelled from the spec words for the formatter contract: the message part
is printf substitution with the first element as format string when the
payload has more than one element, else the single value's default string
form (undefined on an empty payload or a non-string format element). -/
def specMessage (sprintf : List Char → List GoVal → List Char) (sprint : GoVal → List Char)
    (vs : List GoVal) : Option (List Char) :=
  match vs with
  | [] => none
  | [v] => some (sprint v)
  | GoVal.str f :: rest => some (sprintf f rest)
  | _ :: _ => none

/-- Modelled from the spec words for the formatter (amended gating): the
fields appear in the order date, time (with optional microsecond suffix),
LEVEL, file:line, tag, message; date is gated by LDate, the time field by
LTime or LMicroseconds, the microsecond suffix by LMicroseconds, LEVEL by
LLevel, file:line by LFile, the tag by its presence and non-emptiness; a
newline is appended exactly when the line does not already end in one. -/
def specFormat (sprintf : List Char → List GoVal → List Char) (sprint : GoVal → List Char)
    (msg : Message) : Option (List Char) :=
  let d := if msg.vebosity.utc then msg.dateUTC else msg.date
  let dateF := if msg.vebosity.date then
      itoa d.year 4 ++ ['/'] ++ itoa d.month 2 ++ ['/'] ++ itoa d.day 2 ++ [' ']
    else []
  let timeF := if msg.vebosity.time || msg.vebosity.micro then
      itoa d.hour 2 ++ [':'] ++ itoa d.minute 2 ++ [':'] ++ itoa d.sec 2 ++
        (if msg.vebosity.micro then ['.'] ++ itoa (d.nsec / 1000) 6 else []) ++ [' ']
    else []
  let levelF := if msg.vebosity.level then levelString msg.level ++ [' '] else []
  let fileF := if msg.vebosity.file then ['['] ++ msg.callLocation ++ [']', ' '] else []
  let tagF := match msg.pfx with
    | some p => if p = [] then [] else ['['] ++ p ++ [']', ' ']
    | none => []
  match specMessage sprintf sprint msg.message with
  | none => none
  | some mp =>
    let line := dateF ++ timeF ++ levelF ++ fileF ++ tagF ++ mp
    some (if line.getLast? = some '\n' then line else line ++ ['\n'])

/-- The logger fields the embedded methods read: configured level, the level
used for the stdlib-logger adapter, the verbosity mask and the tag string
(src/logger.go lines 88-96; the sibling copy in src/logger_test.go lines
87-98 carries the tag that createMessage stores into each message). -/
structure Logger where
  level : Int
  goLogLevel : Int
  verbosity : Verbosity
  pfx : List Char
deriving DecidableEq

/-- Ambient per-call data: time.Now(), its UTC view, and the file:line string
runtime.Caller resolves at the configured depth. -/
structure CallEnv where
  now : DateRec
  nowUTC : DateRec
  callLoc : List Char
deriving DecidableEq

/-- createMessage (src/logger_test.go lines 239-270, the copy whose message
struct feeds manager.go): captures the date, payload, level, verbosity and
tag; the call location comes from the call environment. -/
def Logger.createMessage (l : Logger) (cenv : CallEnv) (lvl : Int) (v : List GoVal) : Message :=
  { pfx := some l.pfx, date := cenv.now, dateUTC := cenv.nowUTC, level := lvl,
    vebosity := l.verbosity, message := v, callLocation := cenv.callLoc }

/-- Outcome of one facade logging call: filtered out by level, a message
enqueued on the manager channel, or a Go runtime abort before enqueueing. -/
inductive CallResult where
  | skipped
  | enqueued (m : Message)
  | aborted
deriving DecidableEq

/-- True when the call enqueued a message. -/
def isEnq : CallResult → Bool
  | CallResult.enqueued _ => true
  | _ => false

/-- True when the call hit a Go runtime abort. -/
def isAbort : CallResult → Bool
  | CallResult.aborted => true
  | _ => false

/-- Logger.Debug (src/logger.go lines 196-202): skip when level < DEBUG, else
enqueue. -/
def Logger.Debug (l : Logger) (cenv : CallEnv) (v : List GoVal) : CallResult :=
  if l.level < DEBUG then CallResult.skipped
  else CallResult.enqueued (l.createMessage cenv DEBUG v)

/-- Logger.Info (src/logger.go lines 204-210). -/
def Logger.Info (l : Logger) (cenv : CallEnv) (v : List GoVal) : CallResult :=
  if l.level < INFO then CallResult.skipped
  else CallResult.enqueued (l.createMessage cenv INFO v)

/-- Logger.Warning (src/logger.go lines 212-218). -/
def Logger.Warning (l : Logger) (cenv : CallEnv) (v : List GoVal) : CallResult :=
  if l.level < WARNING then CallResult.skipped
  else CallResult.enqueued (l.createMessage cenv WARNING v)

/-- Logger.Error (src/logger.go lines 220-226). -/
def Logger.Error (l : Logger) (cenv : CallEnv) (v : List GoVal) : CallResult :=
  if l.level < ERROR then CallResult.skipped
  else CallResult.enqueued (l.createMessage cenv ERROR v)

/-- The argument shuffle shared by the *f variants (src/logger.go lines
228-270): v = append(v, v[0]); v[0] = fmt.  Reading v[0] of an empty variadic
list is a Go index-out-of-range abort; otherwise the enqueued payload is
fmt :: v[1:] ++ [v[0]]. -/
def Logger.fcall (l : Logger) (cenv : CallEnv) (lvl : Int) (f : List Char)
    (v : List GoVal) : CallResult :=
  match v with
  | [] => CallResult.aborted
  | x :: xs => CallResult.enqueued (l.createMessage cenv lvl (GoVal.str f :: xs ++ [x]))

/-- Logger.Debugf (src/logger.go lines 228-237). -/
def Logger.Debugf (l : Logger) (cenv : CallEnv) (f : List Char) (v : List GoVal) : CallResult :=
  if l.level < DEBUG then CallResult.skipped else l.fcall cenv DEBUG f v

/-- Logger.Infof (src/logger.go lines 239-248). -/
def Logger.Infof (l : Logger) (cenv : CallEnv) (f : List Char) (v : List GoVal) : CallResult :=
  if l.level < INFO then CallResult.skipped else l.fcall cenv INFO f v

/-- Logger.Warningf (src/logger.go lines 250-259). -/
def Logger.Warningf (l : Logger) (cenv : CallEnv) (f : List Char) (v : List GoVal) : CallResult :=
  if l.level < WARNING then CallResult.skipped else l.fcall cenv WARNING f v

/-- Logger.Errorf (src/logger.go lines 261-270). -/
def Logger.Errorf (l : Logger) (cenv : CallEnv) (f : List Char) (v : List GoVal) : CallResult :=
  if l.level < ERROR then CallResult.skipped else l.fcall cenv ERROR f v

/-- Logger.Write, the stdlib-logger adapter (src/logger.go lines 272-280):
below goLogLevel return the zero values (no message, 0); otherwise enqueue the
payload p[0:len(p)-1] as a single string and return len(p).  Slicing an empty
p aborts (None). -/
def Logger.Write (l : Logger) (cenv : CallEnv) (p : List Char) :
    Option (Option Message × Nat) :=
  if l.level < l.goLogLevel then some (none, 0)
  else match p with
    | [] => none
    | _ => some (some (l.createMessage cenv l.goLogLevel [GoVal.str p.dropLast]), p.length)

/-- One character of strings.ToUpper as Go applies it to the ASCII level
names: map a lowercase letter to its uppercase form. -/
def charUpper (c : Char) : Char :=
  if 'a' ≤ c ∧ c ≤ 'z' then Char.ofNat (c.toNat - 32) else c

/-- strings.ToUpper as used by ToLogLevel (src/logger.go line 48). -/
def goToUpper (s : String) : String := String.mk (s.toList.map charUpper)

/-- ToLogLevel (src/logger.go lines 46-62): uppercase the input, match the
four level names, and fall back to INFO for anything else (the code comment
reads: if unknown will return INFO). -/
def ToLogLevel (s : String) : Int :=
  let u := goToUpper s
  if u = "ERROR" then ERROR
  else if u = "WARNING" then WARNING
  else if u = "INFO" then INFO
  else if u = "DEBUG" then DEBUG
  else INFO

/-- The duplicate-name check of NewLogger (src/logger.go lines 143-146): a
name already in the registry is a Go panic, modelled as an error result
carrying the panic string; otherwise the name is registered. -/
def NewLogger (reg : List String) (name : String) : Except String (List String) :=
  if name ∈ reg then Except.error ("Logger " ++ name ++ " already registered")
  else Except.ok (reg ++ [name])

/-- The manager's active output: nil (zero value before the first newFile
succeeds), os.Stderr, or an open file handle identified by a ghost id so that
handle changes are observable. -/
inductive FileRef where
  | noHandle
  | stderr
  | file (id : Nat)
deriving DecidableEq

/-- Externally visible filesystem actions the manager performs, in order. -/
inductive FsEvent where
  | footerWritten (fileId : Nat)
  | renamed (src dst : String)
  | created (path : String)
  | headerWritten (path : String)
  | wrote (out : FileRef) (n : Nat)
deriving DecidableEq

/-- Result of logmanager.rename as newFile distinguishes it: success,
os.ErrExist (archive-name collision), or any other error. -/
inductive RenameResult where
  | ok
  | errExist
  | errOther
deriving DecidableEq

/-- The logmanager state (src/manager.go lines 31-40): file path base,
current and initial rotate thresholds, byte counter, active output.
nextFileId is a ghost counter handing out fresh handle ids at os.Create. -/
structure logmanager where
  filepath : String
  fileRotateSize : Nat
  initialFileRotateSize : Nat
  currentFileSize : Nat
  currentFile : FileRef
  nextFileId : Nat
deriving DecidableEq

/-- tempStderrWriteSize = 500 * 1024 (src/manager.go line 12). -/
def tempStderrWriteSize : Nat := 500 * 1024

/-- Outcomes of the filesystem calls one newFile invocation can make:
os.Stat on the base file, IsDir, os.Stat on the archive name, os.Rename,
os.Create. -/
structure FsEnv where
  baseExists : Bool
  baseIsDir : Bool
  archiveExists : Bool
  renameOk : Bool
  createOk : Bool
deriving DecidableEq

/-- The Go timestamp layout 01-02-2006_15-04-05, i.e. MM-DD-YYYY_HH-MM-SS
with zero-padded fields (src/manager.go line 188). -/
def goTimestamp (d : DateRec) : String :=
  String.mk (itoa d.month 2) ++ "-" ++ String.mk (itoa d.day 2) ++ "-" ++
    String.mk (itoa d.year 4) ++ "_" ++ String.mk (itoa d.hour 2) ++ "-" ++
    String.mk (itoa d.minute 2) ++ "-" ++ String.mk (itoa d.sec 2)

/-- The archive file name fmt.Sprintf("%s-%s.log", filepath, t.Format(...))
(src/manager.go line 188). -/
def archiveName (base : String) (d : DateRec) : String :=
  base ++ "-" ++ goTimestamp d ++ ".log"

/-- closeFile (src/manager.go lines 134-142): when the current output is an
open file (not nil, not stderr) and header/footer mode is on, invoke the
footer writer.  The handle itself is merely abandoned. -/
def closeFileEvents (hf : Bool) (s : logmanager) : List FsEvent :=
  match s.currentFile with
  | FileRef.file id => if hf then [FsEvent.footerWritten id] else []
  | _ => []

/-- logmanager.rename (src/manager.go lines 174-203): stat the base file; a
directory is ErrInvalid; if it exists, compute the archive name (UTC when
LUTC is set) and return os.ErrExist when that name is taken; otherwise run
closeFile and os.Rename.  When the base file does not exist the computed
target stays empty, closeFile still runs, and os.Rename(file, "") fails. -/
def logmanager.rename (s : logmanager) (hf utc : Bool) (t tUTC : DateRec)
    (env : FsEnv) : List FsEvent × RenameResult :=
  if env.baseExists then
    if env.baseIsDir then ([], RenameResult.errOther)
    else
      let d := if utc then tUTC else t
      if env.archiveExists then ([], RenameResult.errExist)
      else
        let evs := closeFileEvents hf s
        if env.renameOk then
          (evs ++ [FsEvent.renamed (s.filepath ++ ".log") (archiveName s.filepath d)],
           RenameResult.ok)
        else (evs, RenameResult.errOther)
  else (closeFileEvents hf s, RenameResult.errOther)

/-- logmanager.newFile (src/manager.go lines 144-172): zero the byte counter;
unless already on stderr, attempt rename — on os.ErrExist widen the threshold
by initial/20 and return, on any other error switch to stderr with the 500KiB
threshold and fall through; then os.Create the base file — on failure switch
to stderr with the 500KiB threshold, on success write the header when
enabled, restore the initial threshold and adopt the fresh handle. -/
def logmanager.newFile (s : logmanager) (hf utc : Bool) (t tUTC : DateRec)
    (env : FsEnv) : logmanager × List FsEvent :=
  let baseFile := s.filepath ++ ".log"
  let s0 : logmanager := { s with currentFileSize := 0 }
  let step : logmanager × List FsEvent × Bool :=
    if s0.currentFile ≠ FileRef.stderr then
      match s0.rename hf utc t tUTC env with
      | (evs, RenameResult.errExist) =>
        ({ s0 with fileRotateSize := s0.fileRotateSize + s0.initialFileRotateSize / 20 },
         evs, true)
      | (evs, RenameResult.errOther) =>
        ({ s0 with currentFile := FileRef.stderr, fileRotateSize := tempStderrWriteSize },
         evs, false)
      | (evs, RenameResult.ok) => (s0, evs, false)
    else (s0, [], false)
  match step with
  | (s1, evs, true) => (s1, evs)
  | (s1, evs, false) =>
    if env.createOk then
      ({ s1 with fileRotateSize := s1.initialFileRotateSize,
                 currentFile := FileRef.file s1.nextFileId,
                 nextFileId := s1.nextFileId + 1 },
       evs ++ [FsEvent.created baseFile] ++
         (if hf then [FsEvent.headerWritten baseFile] else []))
    else
      ({ s1 with currentFile := FileRef.stderr, fileRotateSize := tempStderrWriteSize },
       evs)

/-- shouldRotate (src/manager.go lines 126-132): currentFileSize >=
fileRotateSize. -/
def shouldRotate (s : logmanager) : Bool :=
  decide (s.fileRotateSize ≤ s.currentFileSize)

/-- logmanager.write (src/manager.go lines 116-124): run newFile when
rotation is due or no output exists yet, then write the buffer to the current
output and add the accepted byte count n to the counter.  A write on a still
nil output is a Go nil-interface abort (None). -/
def logmanager.write (s : logmanager) (hf utc : Bool) (t tUTC : DateRec)
    (env : FsEnv) (n : Nat) : Option (logmanager × List FsEvent) :=
  let s1e :=
    if shouldRotate s || s.currentFile == FileRef.noHandle then
      s.newFile hf utc t tUTC env
    else (s, [])
  match s1e.1.currentFile with
  | FileRef.noHandle => none
  | out => some ({ s1e.1 with currentFileSize := s1e.1.currentFileSize + n },
                 s1e.2 ++ [FsEvent.wrote out n])

/-- An archive-name collision as newFile sees it: not on stderr (so rename is
attempted), the base file exists, is not a directory, and the archive name is
taken. -/
def isCollision (env : FsEnv) (s : logmanager) : Bool :=
  s.currentFile != FileRef.stderr && env.baseExists && !env.baseIsDir && env.archiveExists

/-- One manager channel as Stop sees it: whether sends are still accepted
(close flips this; a later send is a Go abort) and the queue length the poll
at tick k observes (the background drain makes it time dependent). -/
structure MChan where
  accepting : Bool
  qlen : Nat → Nat

/-- The close loop of Stop (src/logger_test.go lines 108-110): close every
registered manager channel. -/
def closeAll (reg : List (String × MChan)) : List (String × MChan) :=
  reg.map (fun p => (p.1, { p.2 with accepting := false }))

/-- One poll iteration (src/logger_test.go lines 115-121): true when no
registered manager has a non-empty queue at tick k. -/
def allEmptyAt (reg : List (String × MChan)) (k : Nat) : Bool :=
  reg.all (fun p => p.2.qlen k == 0)

/-- The timeout message (src/logger_test.go lines 126-129): per registered
logger, append " queue: <name> size: <len>". -/
def errMsg (reg : List (String × MChan)) (k : Nat) : String :=
  reg.foldl (fun acc p => acc ++ " queue: " ++ p.1 ++ " size: " ++ toString (p.2.qlen k)) ""

/-- The select loop of Stop: the first argument is the number of 100 ms poll
ticks that fire before the timeout; k is the current tick.  A poll seeing all
queues empty returns nil; when the timer fires first the per-logger backlog
message is returned. -/
def stopLoop (reg : List (String × MChan)) : Nat → Nat → Except String Unit
  | 0, k => Except.error (errMsg reg k)
  | t+1, k => if allEmptyAt reg k then Except.ok () else stopLoop reg t (k+1)

/-- Stop (src/logger_test.go lines 104-134; the copy in src/logger.go lines
102-128 polls identically but omits the close loop): close every manager
channel, then poll each 100 ms tick until all queues are empty or the timeout
fires.  Time is discrete here: ticks is the number of polls the timeout
allows. -/
def Stop (reg : List (String × MChan)) (ticks : Nat) :
    List (String × MChan) × Except String Unit :=
  let reg2 := closeAll reg
  (reg2, stopLoop reg2 ticks 0)

/-- A zero time value used by concrete instances. -/
def d0 : DateRec := ⟨0, 0, 0, 0, 0, 0, 0⟩

/-- A filesystem environment producing an archive-name collision: base file
exists, is no directory, archive name taken. -/
def envCollide : FsEnv := ⟨true, false, true, true, true⟩

/-- Every path through newFile zeroes the byte counter: the assignment
l.currentFileSize = 0 precedes the rename attempt and is never undone. -/
theorem newFile_counter_zero (s : logmanager) (hf utc : Bool) (t tUTC : DateRec)
    (env : FsEnv) : (s.newFile hf utc t tUTC env).1.currentFileSize = 0 := by
  rcases env with ⟨be, bd, ae, ro, co⟩
  rcases s with ⟨fp, frs, ifrs, cfs, cf, nid⟩
  cases cf <;> cases be <;> cases bd <;> cases ae <;> cases ro <;> cases co <;>
    simp [logmanager.newFile, logmanager.rename, closeFileEvents, tempStderrWriteSize]

/-- Claim C1 (amended): on every archive-name collision, newFile performs no
filesystem action (empty event trace — nothing renamed, created or
overwritten), keeps the current output, zeroes the byte counter, and widens
the threshold by exactly initialFileRotateSize / 20 in integer division —
which is a strict increase exactly when the configured base threshold is at
least 20 bytes. -/
theorem collision_backoff (s : logmanager) (hf utc : Bool) (t tUTC : DateRec)
    (env : FsEnv) (h : isCollision env s = true) :
    s.newFile hf utc t tUTC env =
      ({ s with currentFileSize := 0,
                fileRotateSize := s.fileRotateSize + s.initialFileRotateSize / 20 }, [])
    ∧ (s.fileRotateSize < (s.newFile hf utc t tUTC env).1.fileRotateSize ↔
        20 ≤ s.initialFileRotateSize) := by
  rcases env with ⟨be, bd, ae, ro, co⟩
  rcases s with ⟨fp, frs, ifrs, cfs, cf, nid⟩
  cases be <;> cases bd <;> cases ae <;> cases cf <;> simp [isCollision] at h <;>
    (refine ⟨?_, ?_⟩
     · simp [logmanager.newFile, logmanager.rename, closeFileEvents]
     · simp [logmanager.newFile, logmanager.rename, closeFileEvents]
       omega)

/-- Claim C1 witness: a collision at base threshold 100 widens the threshold
to 105 (a strict increase), keeps the handle, and touches no file. -/
theorem collision_backoff_witness :
    isCollision envCollide ⟨"app", 100, 100, 150, FileRef.file 0, 1⟩ = true
    ∧ logmanager.newFile ⟨"app", 100, 100, 150, FileRef.file 0, 1⟩ false false d0 d0 envCollide =
        (⟨"app", 105, 100, 0, FileRef.file 0, 1⟩, [])
    ∧ 100 < (logmanager.newFile ⟨"app", 100, 100, 150, FileRef.file 0, 1⟩ false false d0 d0
        envCollide).1.fileRotateSize := by
  have h := collision_backoff ⟨"app", 100, 100, 150, FileRef.file 0, 1⟩ false false d0 d0
    envCollide (by decide)
  exact ⟨by decide, h.1.trans (by decide), h.2.mpr (by decide)⟩

/-- Claim C1 counterexample: with a configured base threshold of 10 bytes a
collision widens the threshold by 10 / 20 = 0, so the effective threshold
does not strictly increase — the claim fails for base thresholds below 20. -/
theorem collision_backoff_cex :
    isCollision envCollide ⟨"app", 10, 10, 10, FileRef.file 0, 1⟩ = true
    ∧ (logmanager.newFile ⟨"app", 10, 10, 10, FileRef.file 0, 1⟩ false false d0 d0
        envCollide).1.fileRotateSize = 10
    ∧ ¬ 10 < (logmanager.newFile ⟨"app", 10, 10, 10, FileRef.file 0, 1⟩ false false d0 d0
        envCollide).1.fileRotateSize := by decide

/-- Claim C2 (amended): the byte counter counts the bytes accepted by the
current output since the last newFile invocation, not since the handle was
opened: every newFile call zeroes it — including the collision back-off,
which keeps the handle — a write without rotation adds exactly the accepted
count and keeps the handle, and a write with rotation leaves the counter at
exactly the accepted count. -/
theorem write_counter (s : logmanager) (hf utc : Bool) (t tUTC : DateRec)
    (env : FsEnv) (n : Nat) :
    (s.newFile hf utc t tUTC env).1.currentFileSize = 0
    ∧ (s.write hf utc t tUTC env n).map (fun r => r.1.currentFileSize) =
        (if shouldRotate s || s.currentFile == FileRef.noHandle then
          if (s.newFile hf utc t tUTC env).1.currentFile = FileRef.noHandle then none
          else some n
         else some (s.currentFileSize + n))
    ∧ (s.write hf utc t tUTC env n).map (fun r => r.1.currentFile) =
        (if shouldRotate s || s.currentFile == FileRef.noHandle then
          if (s.newFile hf utc t tUTC env).1.currentFile = FileRef.noHandle then none
          else some (s.newFile hf utc t tUTC env).1.currentFile
         else some s.currentFile) := by
  refine ⟨newFile_counter_zero s hf utc t tUTC env, ?_, ?_⟩
  · by_cases hr : (shouldRotate s || s.currentFile == FileRef.noHandle) = true
    · have hz := newFile_counter_zero s hf utc t tUTC env
      cases hcf : (s.newFile hf utc t tUTC env).1.currentFile <;>
        simp [logmanager.write, hr, hcf, hz]
    · have hb : (shouldRotate s || s.currentFile == FileRef.noHandle) = false := by
        simpa using hr
      have h1 : shouldRotate s = false := by
        cases ho : shouldRotate s
        · rfl
        · rw [ho] at hb; simp at hb
      cases hcfv : s.currentFile with
      | noHandle => rw [hcfv] at hb; simp at hb
      | stderr => simp [logmanager.write, h1, hcfv]
      | file id => simp [logmanager.write, h1, hcfv]
  · by_cases hr : (shouldRotate s || s.currentFile == FileRef.noHandle) = true
    · cases hcf : (s.newFile hf utc t tUTC env).1.currentFile <;>
        simp [logmanager.write, hr, hcf]
    · have hb : (shouldRotate s || s.currentFile == FileRef.noHandle) = false := by
        simpa using hr
      have h1 : shouldRotate s = false := by
        cases ho : shouldRotate s
        · rfl
        · rw [ho] at hb; simp at hb
      cases hcfv : s.currentFile with
      | noHandle => rw [hcfv] at hb; simp at hb
      | stderr => simp [logmanager.write, h1, hcfv]
      | file id => simp [logmanager.write, h1, hcfv]

/-- Claim C2 counterexample: a write that triggers rotation into an
archive-name collision keeps the very same output handle yet resets the byte
counter (150 bytes written to the handle so far, counter afterwards 7 = the
new write only) — so the counter is not reset exactly when the output
changes and no longer reflects the bytes written to the handle since it was
opened. -/
theorem write_counter_cex :
    (⟨"app", 100, 100, 150, FileRef.file 0, 1⟩ : logmanager).currentFileSize = 150
    ∧ (logmanager.write ⟨"app", 100, 100, 150, FileRef.file 0, 1⟩ false false d0 d0
        envCollide 7).map (fun r => r.1.currentFile) = some (FileRef.file 0)
    ∧ (logmanager.write ⟨"app", 100, 100, 150, FileRef.file 0, 1⟩ false false d0 d0
        envCollide 7).map (fun r => r.1.currentFileSize) = some 7 := by decide

/-- Claim C3: a rotation that finds an existing base file, no collision, and
succeeding rename and create: the footer is written to the old handle when
header/footer mode is on, <base>.log is renamed to
<base>-<MM-DD-YYYY_HH-MM-SS>.log (UTC when LUTC is set), a fresh base file is
created and adopted, the header is written when enabled, the threshold is
reset to the configured base and the byte counter to zero. -/
theorem rotation_success (s : logmanager) (hf utc : Bool) (t tUTC : DateRec)
    (env : FsEnv) (id : Nat)
    (hcf : s.currentFile = FileRef.file id)
    (hbe : env.baseExists = true) (hbd : env.baseIsDir = false)
    (hae : env.archiveExists = false) (hro : env.renameOk = true)
    (hco : env.createOk = true) :
    s.newFile hf utc t tUTC env =
      ({ s with currentFileSize := 0,
                fileRotateSize := s.initialFileRotateSize,
                currentFile := FileRef.file s.nextFileId,
                nextFileId := s.nextFileId + 1 },
       (if hf then [FsEvent.footerWritten id] else []) ++
         [FsEvent.renamed (s.filepath ++ ".log")
            (archiveName s.filepath (if utc then tUTC else t)),
          FsEvent.created (s.filepath ++ ".log")] ++
         (if hf then [FsEvent.headerWritten (s.filepath ++ ".log")] else [])) := by
  rcases env with ⟨be, bd, ae, ro, co⟩
  rcases s with ⟨fp, frs, ifrs, cfs, cf, nid⟩
  simp only at hcf hbe hbd hae hro hco
  subst hcf hbe hbd hae hro hco
  cases hf <;> cases utc <;>
    simp [logmanager.newFile, logmanager.rename, closeFileEvents]

/-- Claim C3 witness: rotating "app" with header/footer mode on at
2024-03-07 15:04:05 writes the footer to handle 0, renames app.log to
app-03-07-2024_15-04-05.log, creates app.log afresh with a header, restores
the threshold and zeroes the counter. -/
theorem rotation_success_witness :
    logmanager.newFile ⟨"app", 100, 100, 150, FileRef.file 0, 1⟩ true false
        ⟨2024, 3, 7, 15, 4, 5, 0⟩ d0 ⟨true, false, false, true, true⟩ =
      (⟨"app", 100, 100, 0, FileRef.file 1, 2⟩,
       [FsEvent.footerWritten 0,
        FsEvent.renamed "app.log" "app-03-07-2024_15-04-05.log",
        FsEvent.created "app.log",
        FsEvent.headerWritten "app.log"]) :=
  (rotation_success ⟨"app", 100, 100, 150, FileRef.file 0, 1⟩ true false
      ⟨2024, 3, 7, 15, 4, 5, 0⟩ d0 ⟨true, false, false, true, true⟩ 0
      rfl rfl rfl rfl rfl rfl).trans (by decide)

/-- Claim C4 (amended): after any newFile attempt the output and threshold
are determined as follows — a collision keeps both output and (widened)
threshold away from the degraded values; otherwise a successful create ends
on the fresh base file with the configured threshold restored (this includes
recovery from stderr, where the rename is skipped, and also a non-collision
rename failure, whose stderr/500KiB assignment is only transient); the
manager ends degraded — output stderr, threshold 500 KiB — exactly when the
create itself fails. -/
theorem degraded_transitions (s : logmanager) (hf utc : Bool) (t tUTC : DateRec)
    (env : FsEnv) :
    (s.newFile hf utc t tUTC env).1.currentFile =
      (if isCollision env s then s.currentFile
       else if env.createOk then FileRef.file s.nextFileId else FileRef.stderr)
    ∧ (s.newFile hf utc t tUTC env).1.fileRotateSize =
      (if isCollision env s then s.fileRotateSize + s.initialFileRotateSize / 20
       else if env.createOk then s.initialFileRotateSize else tempStderrWriteSize) := by
  rcases env with ⟨be, bd, ae, ro, co⟩
  rcases s with ⟨fp, frs, ifrs, cfs, cf, nid⟩
  cases cf <;> cases be <;> cases bd <;> cases ae <;> cases ro <;> cases co <;>
    simp [logmanager.newFile, logmanager.rename, closeFileEvents, isCollision,
      tempStderrWriteSize]

/-- Claim C4 counterexample: a rename failure whose cause is not a collision
(the base file is absent, so the code renames to the empty name and fails)
followed by a successful create ends with the fresh base file as output and
the configured threshold 100 — not on stderr with the 500 KiB threshold, so
such a failure does not put the manager into degraded mode. -/
theorem degraded_transitions_cex :
    (logmanager.newFile ⟨"app", 100, 100, 150, FileRef.file 0, 1⟩ false false d0 d0
        ⟨false, false, false, true, true⟩).1.currentFile = FileRef.file 1
    ∧ ¬ (logmanager.newFile ⟨"app", 100, 100, 150, FileRef.file 0, 1⟩ false false d0 d0
        ⟨false, false, false, true, true⟩).1.currentFile = FileRef.stderr
    ∧ (logmanager.newFile ⟨"app", 100, 100, 150, FileRef.file 0, 1⟩ false false d0 d0
        ⟨false, false, false, true, true⟩).1.fileRotateSize = 100
    ∧ ¬ (logmanager.newFile ⟨"app", 100, 100, 150, FileRef.file 0, 1⟩ false false d0 d0
        ⟨false, false, false, true, true⟩).1.fileRotateSize = tempStderrWriteSize := by
  decide

/-- The poll loop returns nil exactly when some tick before the timeout sees
all queues empty, and otherwise reports the backlog at the timeout tick. -/
theorem stopLoop_char (reg : List (String × MChan)) : ∀ (t k : Nat),
    stopLoop reg t k =
      (if (List.range t).any (fun j => allEmptyAt reg (k + j)) then Except.ok ()
       else Except.error (errMsg reg (k + t))) := by
  intro t
  induction t with
  | zero => intro k; simp [stopLoop]
  | succ t ih =>
    intro k
    by_cases h : allEmptyAt reg k = true
    · have h0 : (List.range (t + 1)).any (fun j => allEmptyAt reg (k + j)) = true := by
        refine List.any_eq_true.mpr ⟨0, ?_, ?_⟩
        · simp
        · simpa using h
      simp [stopLoop, h, h0]
    · have hrange : (List.range (t + 1)).any (fun j => allEmptyAt reg (k + j)) =
          (List.range t).any (fun j => allEmptyAt reg (k + 1 + j)) := by
        rw [List.range_succ_eq_map]
        simp only [List.any_cons, List.any_map]
        have hcomp : ((fun j => allEmptyAt reg (k + j)) ∘ Nat.succ) =
            (fun j => allEmptyAt reg (k + 1 + j)) := by
          funext j
          show allEmptyAt reg (k + Nat.succ j) = allEmptyAt reg (k + 1 + j)
          congr 1
          omega
        rw [hcomp]
        simp [h]
      have harith : k + 1 + t = k + (t + 1) := by omega
      rw [show stopLoop reg (t + 1) k =
        (if allEmptyAt reg k then Except.ok () else stopLoop reg t (k + 1)) from rfl]
      rw [ih (k + 1), hrange, harith]
      simp [h]

/-- Claim C5: Stop closes every registered manager channel (no new
submissions are accepted afterwards), then polls once per 100 ms tick: it
returns nil exactly when some poll within the allowed ticks observes every
queue empty, and otherwise returns the failure message listing, per logger
name, the number of records still queued at the timeout tick.  Time is
modelled discretely: ticks is the number of 100 ms polls the timeout
allows. -/
theorem stop_contract (reg : List (String × MChan)) (ticks : Nat) :
    ((Stop reg ticks).1.all (fun p => p.2.accepting == false)) = true
    ∧ (Stop reg ticks).2 =
        (if (List.range ticks).any (fun j => allEmptyAt (closeAll reg) j) then Except.ok ()
         else Except.error (errMsg (closeAll reg) ticks)) := by
  constructor
  · simp [Stop, closeAll, List.all_map, Function.comp]
  · have h := stopLoop_char (closeAll reg) ticks 0
    simpa using h

/-- Claim C6 (amended): Debug/Info/Warning/Error enqueue a record exactly
when the configured level is at least the message level (ERROR=0 < WARNING=1
< INFO=2 < DEBUG=3); their *f variants do so exactly when additionally the
variadic argument list is non-empty, and abort (Go index out of range on
v[0]) exactly when the level check passes but the variadic list is empty.
In particular a record above the configured threshold is never enqueued. -/
theorem level_filtering (l : Logger) (cenv : CallEnv) (f : List Char) (v : List GoVal) :
    (isEnq (l.Debug cenv v) = true ↔ DEBUG ≤ l.level)
    ∧ (isEnq (l.Info cenv v) = true ↔ INFO ≤ l.level)
    ∧ (isEnq (l.Warning cenv v) = true ↔ WARNING ≤ l.level)
    ∧ (isEnq (l.Error cenv v) = true ↔ ERROR ≤ l.level)
    ∧ (isEnq (l.Debugf cenv f v) = true ↔ DEBUG ≤ l.level ∧ v ≠ [])
    ∧ (isAbort (l.Debugf cenv f v) = true ↔ DEBUG ≤ l.level ∧ v = [])
    ∧ (isEnq (l.Infof cenv f v) = true ↔ INFO ≤ l.level ∧ v ≠ [])
    ∧ (isAbort (l.Infof cenv f v) = true ↔ INFO ≤ l.level ∧ v = [])
    ∧ (isEnq (l.Warningf cenv f v) = true ↔ WARNING ≤ l.level ∧ v ≠ [])
    ∧ (isAbort (l.Warningf cenv f v) = true ↔ WARNING ≤ l.level ∧ v = [])
    ∧ (isEnq (l.Errorf cenv f v) = true ↔ ERROR ≤ l.level ∧ v ≠ [])
    ∧ (isAbort (l.Errorf cenv f v) = true ↔ ERROR ≤ l.level ∧ v = []) := by
  refine ⟨?_, ?_, ?_, ?_, ?_, ?_, ?_, ?_, ?_, ?_, ?_, ?_⟩ <;>
    (simp only [Logger.Debug, Logger.Info, Logger.Warning, Logger.Error, Logger.Debugf,
      Logger.Infof, Logger.Warningf, Logger.Errorf, Logger.fcall,
      DEBUG, INFO, WARNING, ERROR] <;>
     split <;> rename_i h <;> cases v <;> simp_all [isEnq, isAbort] <;> omega)

/-- Claim C6 counterexample: at configured level DEBUG, Debugf with a format
string but an empty variadic list passes the level check yet aborts on the
v[0] read and enqueues nothing — so "enqueued iff configured level ≥ message
level" fails for *f calls without arguments. -/
theorem level_filtering_cex :
    DEBUG ≤ (⟨DEBUG, INFO, LDefault, []⟩ : Logger).level
    ∧ isAbort (Logger.Debugf ⟨DEBUG, INFO, LDefault, []⟩ ⟨d0, d0, []⟩ "x".toList []) = true
    ∧ isEnq (Logger.Debugf ⟨DEBUG, INFO, LDefault, []⟩ ⟨d0, d0, []⟩ "x".toList []) = false := by
  decide

/-- The trailing-newline fixup of formatHeader equals the spec's reading:
append a newline exactly when the line does not already end in one. -/
theorem newline_fix (L : List Char) :
    (if L = [] ∨ ¬ L.getLast? = some '\n' then L ++ ['\n'] else L) =
    (if L.getLast? = some '\n' then L else L ++ ['\n']) := by
  by_cases h : L.getLast? = some '\n'
  · have hne : ¬ L = [] := by
      intro he
      rw [he] at h
      simp at h
    simp [h, hne]
  · simp [h]

/-- The fixup equality up to regrouping of the concatenated line. -/
theorem newline_fix2 (L M : List Char) (h : L = M) :
    (if L = [] ∨ ¬ L.getLast? = some '\n' then L ++ ['\n'] else L) =
    (if M.getLast? = some '\n' then M else M ++ ['\n']) := by
  subst h
  exact newline_fix L

/-- Claim C7 (amended): formatHeader emits exactly the fields date, time
(with microsecond suffix), LEVEL, [file:line], [tag], message — in that
order, where date is gated by LDate, the time field by LTime OR
LMicroseconds (not by LTime alone), the microsecond suffix by LMicroseconds,
LEVEL by LLevel, the call site by LFile, the tag by being present and
non-empty; the message is printf substitution with the first payload element
as format string when the payload has more than one element and the single
value's default string form otherwise; a newline is appended exactly when
the line does not already end in one. -/
theorem formatter_fields (spf : List Char → List GoVal → List Char)
    (spr : GoVal → List Char) (msg : Message) :
    formatHeader spf spr msg = specFormat spf spr msg := by
  have hm : msgPart spf spr msg.message = specMessage spf spr msg.message := by
    cases hv : msg.message with
    | nil => rfl
    | cons v rest =>
      cases rest with
      | nil => cases v <;> simp [msgPart, specMessage]
      | cons w ws =>
        have hlen : 1 < (v :: w :: ws).length := by
          simp only [List.length_cons]
          omega
        cases v <;> simp [msgPart, specMessage, hlen]
  simp only [formatHeader, specFormat, hm]
  cases hsm : specMessage spf spr msg.message with
  | none => rfl
  | some mp =>
    refine congrArg some (newline_fix2 _ _ ?_)
    rcases msg with ⟨pfx, date, dateUTC, lvl, vb, message, callLoc⟩
    rcases vb with ⟨vd, vt, vm, vu, vf, vfl, vl, vhf⟩
    cases vd <;> cases vt <;> cases vm <;> simp

/-- Claim C7 counterexample: with only LMicroseconds set (LTime off) the
formatter still emits the time-of-day field — 01:02:03.000004 — before the
message, so the time field is not gated by its own flag alone. -/
theorem formatter_fields_cex :
    formatHeader (fun f _ => f)
        (fun v => match v with | GoVal.str s => s | GoVal.other _ => [])
        ⟨none, ⟨2024, 1, 1, 1, 2, 3, 4000⟩, ⟨2024, 1, 1, 1, 2, 3, 4000⟩, INFO,
         ⟨false, false, true, false, false, false, false, false⟩,
         [GoVal.str "hi".toList], []⟩ =
      some "01:02:03.000004 hi\n".toList
    ∧ ¬ formatHeader (fun f _ => f)
        (fun v => match v with | GoVal.str s => s | GoVal.other _ => [])
        ⟨none, ⟨2024, 1, 1, 1, 2, 3, 4000⟩, ⟨2024, 1, 1, 1, 2, 3, 4000⟩, INFO,
         ⟨false, false, true, false, false, false, false, false⟩,
         [GoVal.str "hi".toList], []⟩ =
      some "hi\n".toList := by
  decide

/-- Claim C8 (amended): registering an already-registered logger name is
reported immediately (the Go panic, modelled as the error result); but a
malformed severity string is NOT reported: ToLogLevel silently maps any
unrecognized string to the default level INFO. -/
theorem config_errors (reg : List String) (name s : String)
    (h1 : goToUpper s ≠ "ERROR") (h2 : goToUpper s ≠ "WARNING")
    (h3 : goToUpper s ≠ "INFO") (h4 : goToUpper s ≠ "DEBUG") :
    ((∃ e, NewLogger reg name = Except.error e) ↔ name ∈ reg)
    ∧ ToLogLevel s = INFO := by
  constructor
  · constructor
    · rintro ⟨e, he⟩
      by_contra hmem
      simp [NewLogger, hmem] at he
    · intro hmem
      exact ⟨"Logger " ++ name ++ " already registered", by simp [NewLogger, hmem]⟩
  · simp [ToLogLevel, h1, h2, h3, h4]

/-- Claim C8 witness: the name "app" is already registered, so NewLogger
reports it; the malformed severity "bogus" is mapped to INFO. -/
theorem config_errors_witness :
    goToUpper "bogus" ≠ "ERROR" ∧ ToLogLevel "bogus" = INFO
    ∧ NewLogger ["app"] "app" = Except.error "Logger app already registered" := by
  have h := config_errors ["app"] "app" "bogus" (by decide) (by decide) (by decide) (by decide)
  exact ⟨by decide, h.2, by simp [NewLogger]⟩

/-- Claim C8 counterexample: the malformed severity string "bogus" is
silently converted to the default level INFO rather than reported — the
ToLogLevel code comment itself documents the fallback. -/
theorem config_errors_cex :
    ToLogLevel "bogus" = INFO
    ∧ goToUpper "bogus" ≠ "ERROR" ∧ goToUpper "bogus" ≠ "WARNING"
    ∧ goToUpper "bogus" ≠ "INFO" ∧ goToUpper "bogus" ≠ "DEBUG" := by
  decide

/-- Claim C9: formatting reads the first payload element unconditionally, so
a message with an empty payload formats to the abort value None; and the
variadic facade methods happily enqueue an empty payload when the level
check passes, producing exactly such a message. -/
theorem empty_payload (spf : List Char → List GoVal → List Char)
    (spr : GoVal → List Char) (msg : Message) (l : Logger) (cenv : CallEnv)
    (hmsg : msg.message = []) (hlvl : INFO ≤ l.level) :
    formatHeader spf spr msg = none
    ∧ l.Info cenv [] = CallResult.enqueued (l.createMessage cenv INFO [])
    ∧ (l.createMessage cenv INFO []).message = []
    ∧ formatHeader spf spr (l.createMessage cenv INFO []) = none := by
  refine ⟨?_, ?_, rfl, ?_⟩
  · simp [formatHeader, msgPart, hmsg]
  · rw [Logger.Info, if_neg (by omega)]
  · simp [formatHeader, msgPart, Logger.createMessage]

/-- Claim C9 witness: an INFO-level logger, called with zero arguments,
enqueues a record with empty payload whose formatting is the abort value. -/
theorem empty_payload_witness :
    (⟨none, d0, d0, INFO, LDefault, [], []⟩ : Message).message = []
    ∧ formatHeader (fun f _ => f) (fun _ => [])
        ⟨none, d0, d0, INFO, LDefault, [], []⟩ = none
    ∧ Logger.Info ⟨INFO, INFO, LDefault, []⟩ ⟨d0, d0, []⟩ [] =
        CallResult.enqueued (Logger.createMessage ⟨INFO, INFO, LDefault, []⟩ ⟨d0, d0, []⟩ INFO [])
    ∧ formatHeader (fun f _ => f) (fun _ => [])
        (Logger.createMessage ⟨INFO, INFO, LDefault, []⟩ ⟨d0, d0, []⟩ INFO []) = none := by
  have h := empty_payload (fun f _ => f) (fun _ => [])
    ⟨none, d0, d0, INFO, LDefault, [], []⟩ ⟨INFO, INFO, LDefault, []⟩ ⟨d0, d0, []⟩
    rfl (by decide)
  exact ⟨rfl, h.1, h.2.1, h.2.2.2⟩

/-- Claim C10: for a non-empty byte slice p, the stdlib-logger adapter Write
enqueues — when the configured level is at least goLogLevel — one record
whose payload is the single string p without its final byte and returns
(len p, nil); below goLogLevel it enqueues nothing and returns (0, nil). -/
theorem golog_adapter (l : Logger) (cenv : CallEnv) (p : List Char) (hp : p ≠ []) :
    l.Write cenv p =
      some (if l.level < l.goLogLevel then (none, 0)
            else (some (l.createMessage cenv l.goLogLevel [GoVal.str p.dropLast]), p.length)) := by
  by_cases h : l.level < l.goLogLevel
  · simp [Logger.Write, h]
  · cases p with
    | nil => exact absurd rfl hp
    | cons c cs => simp [Logger.Write, h]

/-- Claim C10 witness: a logger at level INFO with goLogLevel INFO accepts
"ab\n": the enqueued payload is "ab" (final byte removed) and the returned
count is 3. -/
theorem golog_adapter_witness :
    Logger.Write ⟨INFO, INFO, LDefault, []⟩ ⟨d0, d0, []⟩ "ab\n".toList =
      some (some (Logger.createMessage ⟨INFO, INFO, LDefault, []⟩ ⟨d0, d0, []⟩ INFO
        [GoVal.str "ab".toList]), 3) := by
  have h := golog_adapter ⟨INFO, INFO, LDefault, []⟩ ⟨d0, d0, []⟩ "ab\n".toList (by decide)
  exact h.trans (by decide)

end Golog
